import Mathlib

/-
  Verification development for the k9s resource-metadata registry
  (internal/dao/registry.go).

  The Go code is shallowly embedded: the thread-safe map `ResourceMetas`
  becomes an association list with map semantics (unique keys), each Go
  function becomes a pure Lean function threading the store explicitly,
  and the external `Factory`/`Client` collaborators become data records
  holding the answers the code would receive from them.
-/

namespace K9s

/-! ## Character-list string helpers

`strings.Contains` and the group/version parsing are embedded via explicit
recursion on character lists so that every proof obligation reduces. -/

/-- `hasPre p l` is true iff the char list `p` is an initial segment of `l`. -/
def hasPre : List Char → List Char → Bool
  | [], _ => true
  | _ :: _, [] => false
  | a :: as, b :: bs => a == b && hasPre as bs

/-- `hasInfixChars p l` is true iff `p` occurs contiguously inside `l`;
embeds Go `strings.Contains`. -/
def hasInfixChars (p : List Char) : List Char → Bool
  | [] => hasPre p []
  | c :: t => hasPre p (c :: t) || hasInfixChars p t

/-- Embeds Go `strings.Contains(s, sub)`. -/
def strContainsSub (s sub : String) : Bool :=
  hasInfixChars sub.data s.data

/-- Suffix test on strings; used only to state the spec's (claimed)
"ends with the reserved built-in domain suffix" classification. -/
def strEndsWith (s suf : String) : Bool :=
  hasPre suf.data.reverse s.data.reverse

/-- Split a char list at every occurrence of `sep` (Go `strings.Split` on
a one-char separator). -/
def splitChars (sep : Char) : List Char → List (List Char)
  | [] => [[]]
  | c :: t =>
    let r := splitChars sep t
    if c == sep then [] :: r
    else
      match r with
      | [] => [[c]]
      | h :: t2 => (c :: h) :: t2

def splitStr (sep : Char) (s : String) : List String :=
  (splitChars sep s.data).map (fun l => String.mk l)

/-! ## Type identifiers (client.GVR)

Modelled from the spec: "Type Identifier (GVR): composite key of
{group, version, resource-plural-name}; equality is exact triple match."
The `client` package is not part of the sources under review, so the
identifier is embedded as the triple the spec describes. -/

structure GVR where
  g : String
  v : String
  r : String
deriving DecidableEq, Repr

/-- Modelled from the spec: parse a path-style identifier string
("r", "v/r" or "g/v/r") into the composite key (client.NewGVR). -/
def NewGVR (s : String) : GVR :=
  match splitStr '/' s with
  | [r0] => ⟨"", "", r0⟩
  | [v0, r0] => ⟨"", v0, r0⟩
  | [g0, v0, r0] => ⟨g0, v0, r0⟩
  | _ => ⟨"", "", s⟩

/-- Modelled from the spec: build the identifier from a group-version
string ("g/v" or just "v") and a resource name (client.FromGVAndR). -/
def FromGVAndR (gv r0 : String) : GVR :=
  match splitStr '/' gv with
  | [v0] => ⟨"", v0, r0⟩
  | [g0, v0] => ⟨g0, v0, r0⟩
  | _ => ⟨"", "", r0⟩

/-- Modelled from the spec: the zero identifier (client.NoGVR). -/
def NoGVR : GVR := ⟨"", "", ""⟩

/-- Modelled from the spec: canonical string form of an identifier,
used for the total order imposed at enumeration time. -/
def GVR.toStr (x : GVR) : String :=
  if x.g = "" then (if x.v = "" then x.r else x.v ++ "/" ++ x.r)
  else x.g ++ "/" ++ x.v ++ "/" ++ x.r

/-! ## Descriptors (metav1.APIResource, the fields the registry uses) -/

structure APIResource where
  Name : String := ""
  SingularName : String := ""
  Namespaced : Bool := false
  Group : String := ""
  Version : String := ""
  Kind : String := ""
  ShortNames : List String := []
  Verbs : List String := []
  Categories : List String := []
deriving DecidableEq, Repr

/-- Modelled from the spec: identifier built from a descriptor's
group/version/plural-name (client.NewGVRFromMeta). -/
def NewGVRFromMeta (res : APIResource) : GVR :=
  ⟨res.Group, res.Version, res.Name⟩

/-- The catalog: Go `type ResourceMetas map[client.GVR]metav1.APIResource`,
embedded as an association list with unique keys. -/
abbrev ResourceMetas := List (GVR × APIResource)

/-- Map read `m[gvr]`. -/
def lookupMeta (m : ResourceMetas) (k : GVR) : Option APIResource :=
  (m.find? (fun p => decide (p.1 = k))).map (fun p => p.2)

/-- Map write `m[gvr] = res` (upsert, last write wins). -/
def setMeta (m : ResourceMetas) (k : GVR) (v : APIResource) : ResourceMetas :=
  if (m.find? (fun p => decide (p.1 = k))).isSome then
    m.map (fun p => if p.1 = k then (k, v) else p)
  else m ++ [(k, v)]

/-- Sequential map writes, in list order. -/
def setMetaList (m : ResourceMetas) (l : List (GVR × APIResource)) : ResourceMetas :=
  l.foldl (fun acc p => setMeta acc p.1 p.2) m

/-- Go `func (m ResourceMetas) clear()`: deletes every key. -/
def clearMetas (_ : ResourceMetas) : ResourceMetas := []

/-! ## Category constants and group classification -/

def crdCat : String := "crd"
def k9sCat : String := "k9s"
def helmCat : String := "helm"
def scaleCat : String := "scale"

/-- The fixed allow-list of built-in group-versions (`stdGroups`). -/
def stdGroups : List String :=
  ["apps/v1", "autoscaling/v1", "autoscaling/v2", "autoscaling/v2beta1",
   "autoscaling/v2beta2", "batch/v1", "batch/v1beta1", "extensions/v1beta1",
   "policy/v1beta1", "policy/v1", "v1"]

/-- Go `isStandardGroup`: allow-list membership OR
`strings.Contains(gv, ".k8s.io")`. -/
def isStandardGroup (gv : String) : Bool :=
  decide (gv ∈ stdGroups) || strContainsSub gv ".k8s.io"

/-- The fixed deprecation deny-list (`deprecatedGVRs`). -/
def deprecatedGVRs : List GVR :=
  [NewGVR "extensions/v1beta1/ingresses"]

/-- Go `isDeprecated`. -/
def isDeprecated (gvr : GVR) : Bool :=
  decide (gvr ∈ deprecatedGVRs)

/-! ## Synthetic (tool-internal) descriptors -/

/-- Go `loadK9s`: twelve tool-internal descriptors, written in source order. -/
def loadK9s (m : ResourceMetas) : ResourceMetas :=
  let m := setMeta m (NewGVR "workloads")
    { Name := "workloads", Kind := "Workload", SingularName := "workload",
      Namespaced := true, ShortNames := ["wk"], Categories := [k9sCat] }
  let m := setMeta m (NewGVR "pulses")
    { Name := "pulses", Kind := "Pulse", SingularName := "pulses",
      ShortNames := ["hz", "pu"], Categories := [k9sCat] }
  let m := setMeta m (NewGVR "dir")
    { Name := "dir", Kind := "Dir", SingularName := "dir", Categories := [k9sCat] }
  let m := setMeta m (NewGVR "xrays")
    { Name := "xray", Kind := "XRays", SingularName := "xray", Categories := [k9sCat] }
  let m := setMeta m (NewGVR "references")
    { Name := "references", Kind := "References", SingularName := "reference",
      Verbs := [], Categories := [k9sCat] }
  let m := setMeta m (NewGVR "aliases")
    { Name := "aliases", Kind := "Aliases", SingularName := "alias",
      Verbs := [], Categories := [k9sCat] }
  let m := setMeta m (NewGVR "contexts")
    { Name := "contexts", Kind := "Contexts", SingularName := "context",
      ShortNames := ["ctx"], Verbs := [], Categories := [k9sCat] }
  let m := setMeta m (NewGVR "screendumps")
    { Name := "screendumps", Kind := "ScreenDumps", SingularName := "screendump",
      ShortNames := ["sd"], Verbs := ["delete"], Categories := [k9sCat] }
  let m := setMeta m (NewGVR "benchmarks")
    { Name := "benchmarks", Kind := "Benchmarks", SingularName := "benchmark",
      ShortNames := ["be"], Verbs := ["delete"], Categories := [k9sCat] }
  let m := setMeta m (NewGVR "portforwards")
    { Name := "portforwards", Namespaced := true, Kind := "PortForwards",
      SingularName := "portforward", ShortNames := ["pf"], Verbs := ["delete"],
      Categories := [k9sCat] }
  let m := setMeta m (NewGVR "containers")
    { Name := "containers", Kind := "Containers", SingularName := "container",
      Verbs := [], Categories := [k9sCat] }
  setMeta m (NewGVR "scans")
    { Name := "scans", Kind := "Scans", SingularName := "scan",
      Verbs := [], Categories := [k9sCat] }

/-- Go `loadRBAC`. -/
def loadRBAC (m : ResourceMetas) : ResourceMetas :=
  let m := setMeta m (NewGVR "rbac")
    { Name := "rbacs", Kind := "Rules", Categories := [k9sCat] }
  let m := setMeta m (NewGVR "policy")
    { Name := "policies", Kind := "Rules", Namespaced := true, Categories := [k9sCat] }
  let m := setMeta m (NewGVR "users")
    { Name := "users", Kind := "User", Categories := [k9sCat] }
  setMeta m (NewGVR "groups")
    { Name := "groups", Kind := "Group", Categories := [k9sCat] }

/-- Go `loadHelm`. -/
def loadHelm (m : ResourceMetas) : ResourceMetas :=
  let m := setMeta m (NewGVR "helm")
    { Name := "helm", Kind := "Helm", Namespaced := true, Verbs := ["delete"],
      Categories := [helmCat] }
  setMeta m (NewGVR "helm-history")
    { Name := "history", Kind := "History", Namespaced := true, Verbs := ["delete"],
      Categories := [helmCat] }

/-- Go `loadNonResource`: loadK9s, loadRBAC, loadHelm in order. -/
def loadNonResource (m : ResourceMetas) : ResourceMetas :=
  loadHelm (loadRBAC (loadK9s m))

/-- The eighteen synthetic descriptors as one table, in registration order.
Used to state what `loadNonResource` installs. -/
def syntheticEntries : List (GVR × APIResource) :=
  [(NewGVR "workloads",
    { Name := "workloads", Kind := "Workload", SingularName := "workload",
      Namespaced := true, ShortNames := ["wk"], Categories := [k9sCat] }),
   (NewGVR "pulses",
    { Name := "pulses", Kind := "Pulse", SingularName := "pulses",
      ShortNames := ["hz", "pu"], Categories := [k9sCat] }),
   (NewGVR "dir",
    { Name := "dir", Kind := "Dir", SingularName := "dir", Categories := [k9sCat] }),
   (NewGVR "xrays",
    { Name := "xray", Kind := "XRays", SingularName := "xray", Categories := [k9sCat] }),
   (NewGVR "references",
    { Name := "references", Kind := "References", SingularName := "reference",
      Verbs := [], Categories := [k9sCat] }),
   (NewGVR "aliases",
    { Name := "aliases", Kind := "Aliases", SingularName := "alias",
      Verbs := [], Categories := [k9sCat] }),
   (NewGVR "contexts",
    { Name := "contexts", Kind := "Contexts", SingularName := "context",
      ShortNames := ["ctx"], Verbs := [], Categories := [k9sCat] }),
   (NewGVR "screendumps",
    { Name := "screendumps", Kind := "ScreenDumps", SingularName := "screendump",
      ShortNames := ["sd"], Verbs := ["delete"], Categories := [k9sCat] }),
   (NewGVR "benchmarks",
    { Name := "benchmarks", Kind := "Benchmarks", SingularName := "benchmark",
      ShortNames := ["be"], Verbs := ["delete"], Categories := [k9sCat] }),
   (NewGVR "portforwards",
    { Name := "portforwards", Namespaced := true, Kind := "PortForwards",
      SingularName := "portforward", ShortNames := ["pf"], Verbs := ["delete"],
      Categories := [k9sCat] }),
   (NewGVR "containers",
    { Name := "containers", Kind := "Containers", SingularName := "container",
      Verbs := [], Categories := [k9sCat] }),
   (NewGVR "scans",
    { Name := "scans", Kind := "Scans", SingularName := "scan",
      Verbs := [], Categories := [k9sCat] }),
   (NewGVR "rbac",
    { Name := "rbacs", Kind := "Rules", Categories := [k9sCat] }),
   (NewGVR "policy",
    { Name := "policies", Kind := "Rules", Namespaced := true, Categories := [k9sCat] }),
   (NewGVR "users",
    { Name := "users", Kind := "User", Categories := [k9sCat] }),
   (NewGVR "groups",
    { Name := "groups", Kind := "Group", Categories := [k9sCat] }),
   (NewGVR "helm",
    { Name := "helm", Kind := "Helm", Namespaced := true, Verbs := ["delete"],
      Categories := [helmCat] }),
   (NewGVR "helm-history",
    { Name := "history", Kind := "History", Namespaced := true, Verbs := ["delete"],
      Categories := [helmCat] })]

/-! ## External collaborators: discovery data, CRD objects, the factory -/

/-- One group-version block of `ServerPreferredResources` output. -/
structure APIResourceList where
  groupVersion : String
  apiResources : List APIResource
deriving DecidableEq, Repr

/-- The cached discovery handle: the data `ServerPreferredResources`
returns, plus the (logged, otherwise ignored) query error. -/
structure Discovery where
  preferred : List APIResourceList
  preferredErr : Option String

/-- The API client: connectivity flag and the result of obtaining the
cached discovery handle. -/
structure Client where
  connectionOK : Bool
  cachedDiscovery : Except String Discovery

structure CRDSubresources where
  scale : Option Unit
deriving DecidableEq, Repr

/-- apiext.CustomResourceDefinitionVersion, the fields the registry reads. -/
structure CRDVersion where
  name : String
  served : Bool
  deprecated : Bool
  subresources : Option CRDSubresources := none
deriving DecidableEq, Repr

structure CRDNames where
  kind : String
  plural : String
deriving DecidableEq, Repr

structure CRDSpec where
  group : String
  names : CRDNames
  versions : List CRDVersion
deriving DecidableEq, Repr

structure CustomResourceDefinition where
  spec : CRDSpec
deriving DecidableEq, Repr

/-- The factory collaborator. `listCRDs` is the outcome of
`f.List(crdGVR, ClusterScope, true, labels.Everything())` followed by the
per-object structured conversion: `none` elements are objects whose
conversion failed (they are logged and skipped). -/
structure Factory where
  client : Option Client
  listCRDs : Except String (List (Option CustomResourceDefinition))

/-- The Go guard `f.Client() != nil && f.Client().ConnectionOK()`. -/
def clientConnected (f : Factory) : Bool :=
  match f.client with
  | none => false
  | some c => c.connectionOK

/-! ## Discovery phase (loadPreferred) -/

/-- Embeds Go `strings.ToLower` (character-wise lowering; the names fed
to it here are ASCII kind names). -/
def strToLower (s : String) : String :=
  String.mk (s.data.map Char.toLower)

/-- The per-resource descriptor fix-up inside `loadPreferred`'s loop:
set Group/Version from the identifier, default the singular name,
append "crd" for non-standard groups. -/
def mkPreferredMeta (gvStr : String) (gvr : GVR) (res : APIResource) : APIResource :=
  let res := { res with Group := gvr.g, Version := gvr.v }
  let res := if res.SingularName = "" then { res with SingularName := strToLower res.Kind } else res
  if !isStandardGroup gvStr then { res with Categories := res.Categories ++ [crdCat] } else res

/-- One iteration of `loadPreferred`'s inner loop. -/
def applyResource (gvStr : String) (m : ResourceMetas) (res : APIResource) : ResourceMetas :=
  let gvr := FromGVAndR gvStr res.Name
  if isDeprecated gvr then m
  else setMeta m gvr (mkPreferredMeta gvStr gvr res)

/-- One iteration of `loadPreferred`'s outer loop. -/
def applyResourceList (m : ResourceMetas) (r : APIResourceList) : ResourceMetas :=
  r.apiResources.foldl (applyResource r.groupVersion) m

/-- Go `loadPreferred`: no connection is non-fatal (store untouched);
failing to obtain the discovery handle is fatal; a discovery query error
is logged and the partial result is still consumed. -/
def loadPreferred (f : Factory) (m : ResourceMetas) : Except String ResourceMetas :=
  match f.client with
  | none => .ok m
  | some c =>
    if c.connectionOK = false then .ok m
    else
      match c.cachedDiscovery with
      | .error e => .error e
      | .ok dial => .ok (dial.preferred.foldl applyResourceList m)

/-! ## CRD augmentation phase (loadCRDs) -/

/-- Go `newGVRFromCRD`: first served-and-not-deprecated version, or nothing. -/
def newGVRFromCRD (crd : CustomResourceDefinition) : Option (GVR × CRDVersion) :=
  (crd.spec.versions.find? (fun v => v.served && !v.deprecated)).map
    (fun v =>
      (NewGVRFromMeta
        { Kind := crd.spec.names.kind, Group := crd.spec.group,
          Name := crd.spec.names.plural, Version := v.name }, v))

/-- `version.Subresources != nil && version.Subresources.Scale != nil`. -/
def hasScaleSub (v : CRDVersion) : Bool :=
  match v.subresources with
  | none => false
  | some sub => sub.scale.isSome

/-- One iteration of `loadCRDs`' loop: skip failed conversions, skip CRDs
with no qualifying version, and add the "scale" category to an existing
entry when the authoritative version declares a scale subresource. -/
def applyCRD (m : ResourceMetas) (o : Option CustomResourceDefinition) : ResourceMetas :=
  match o with
  | none => m
  | some crd =>
    match newGVRFromCRD crd with
    | none => m
    | some (gvr, version) =>
      match lookupMeta m gvr with
      | none => m
      | some meta =>
        if hasScaleSub version then
          if scaleCat ∈ meta.Categories then m
          else setMeta m gvr { meta with Categories := meta.Categories ++ [scaleCat] }
        else m

/-- Go `loadCRDs`: no-op when disconnected or when the CRD listing fails. -/
def loadCRDs (f : Factory) (m : ResourceMetas) : ResourceMetas :=
  match f.client with
  | none => m
  | some c =>
    if c.connectionOK = false then m
    else
      match f.listCRDs with
      | .error _ => m
      | .ok oo => oo.foldl applyCRD m

/-! ## The refresh entry point -/

/-- Go `(*Meta).LoadResources`: clear, then loadPreferred (its error is
fatal and leaves the store cleared), then loadNonResource, then loadCRDs.
Returns the final store contents together with the returned error. -/
def LoadResources (f : Factory) (m : ResourceMetas) : ResourceMetas × Option String :=
  let m0 := clearMetas m
  match loadPreferred f m0 with
  | .error e => (m0, some e)
  | .ok m1 => (loadCRDs f (loadNonResource m1), none)

/-- Modelled from the spec: the refresh pipeline in the order the spec
states it — "clear → register synthetics → query live discovery →
augment from extension-type listing". -/
def LoadResourcesSpecOrder (f : Factory) (m : ResourceMetas) : ResourceMetas × Option String :=
  let m0 := loadNonResource (clearMetas m)
  match loadPreferred f m0 with
  | .error e => (m0, some e)
  | .ok m1 => (loadCRDs f m1, none)

/-- Modelled from the spec as amended: the refresh pipeline in the order
the code performs — clear → live discovery → synthetic registration →
extension-type augmentation. -/
def LoadResourcesCodeOrder (f : Factory) (m : ResourceMetas) : ResourceMetas × Option String :=
  let m0 := clearMetas m
  match loadPreferred f m0 with
  | .error e => (m0, some e)
  | .ok m1 => (loadCRDs f (loadNonResource m1), none)

/-! ## Catalog queries -/

/-- Go `(*Meta).MetaFor`. -/
def MetaFor (m : ResourceMetas) (gvr : GVR) : Except String APIResource :=
  match lookupMeta m gvr with
  | some r0 => .ok r0
  | none => .error ("no resource meta defined for " ++ gvr.toStr)

/-- Lexicographic Bool comparison of char lists, for the enumeration
order of `AllGVRs`. -/
def charListLe : List Char → List Char → Bool
  | [], _ => true
  | _ :: _, [] => false
  | a :: as, b :: bs => if a < b then true else if b < a then false else charListLe as bs

def gvrLe (a b : GVR) : Bool := charListLe a.toStr.data b.toStr.data

def insertGVR (x : GVR) : List GVR → List GVR
  | [] => [x]
  | y :: ys => if gvrLe x y then x :: y :: ys else y :: insertGVR x ys

def sortGVRs (l : List GVR) : List GVR := l.foldr insertGVR []

/-- Go `(*Meta).AllGVRs`: freshly allocated, sorted key list. -/
def AllGVRs (m : ResourceMetas) : List GVR :=
  sortGVRs (m.map Prod.fst)

/-- Go `(*Meta).GVK2GVR`: linear scan for the (group, version, kind) triple. -/
def GVK2GVR (m : ResourceMetas) (gvGroup gvVersion kind : String) : GVR × Bool × Bool :=
  match m.find? (fun p =>
      decide (gvGroup = p.2.Group) && decide (gvVersion = p.2.Version)
        && decide (kind = p.2.Kind)) with
  | some p => (p.1, p.2.Namespaced, true)
  | none => (NoGVR, false, false)

/-! ## Accessor dispatch (AccessorFor) -/

inductive AccessorKind where
  | workload | contextAcc | container | imageScan | screenDump | benchmark
  | portForward | dirAcc | service | pod | node | namespaceAcc | configMap
  | secret | deployment | daemonSet | statefulSet | replicaSet | cronJob
  | job | helmChart | helmHistory | crdAcc | scaler
deriving DecidableEq, Repr

/-- An accessor value: its concrete kind plus the factory/identifier it
was initialized with (`none` before `Init` runs). -/
structure Accessor where
  kind : AccessorKind
  factory : Option Factory := none
  gvrId : Option GVR := none

/-- Go `Accessor.Init(f, gvr)`. -/
def Accessor.Init (a : Accessor) (f : Factory) (gvr : GVR) : Accessor :=
  { a with factory := some f, gvrId := some gvr }

/-- The fixed dispatch table built inside `AccessorFor`, in source order. -/
def accessorTable : List (GVR × AccessorKind) :=
  [(NewGVR "workloads", .workload),
   (NewGVR "contexts", .contextAcc),
   (NewGVR "containers", .container),
   (NewGVR "scans", .imageScan),
   (NewGVR "screendumps", .screenDump),
   (NewGVR "benchmarks", .benchmark),
   (NewGVR "portforwards", .portForward),
   (NewGVR "dir", .dirAcc),
   (NewGVR "v1/services", .service),
   (NewGVR "v1/pods", .pod),
   (NewGVR "v1/nodes", .node),
   (NewGVR "v1/namespaces", .namespaceAcc),
   (NewGVR "v1/configmaps", .configMap),
   (NewGVR "v1/secrets", .secret),
   (NewGVR "apps/v1/deployments", .deployment),
   (NewGVR "apps/v1/daemonsets", .daemonSet),
   (NewGVR "apps/v1/statefulsets", .statefulSet),
   (NewGVR "apps/v1/replicasets", .replicaSet),
   (NewGVR "batch/v1/cronjobs", .cronJob),
   (NewGVR "batch/v1beta1/cronjobs", .cronJob),
   (NewGVR "batch/v1/jobs", .job),
   (NewGVR "helm", .helmChart),
   (NewGVR "helm-history", .helmHistory),
   (NewGVR "apiextensions.k8s.io/v1/customresourcedefinitions", .crdAcc)]

/-- Go `AccessorFor`: table lookup, generic `Scaler` fallback on a miss,
`Init` before returning; the error result is always nil. -/
def AccessorFor (f : Factory) (gvr : GVR) : Accessor × Option String :=
  let r0 : Accessor :=
    match accessorTable.find? (fun p => decide (p.1 = gvr)) with
    | some p => { kind := p.2 }
    | none => { kind := .scaler }
  (r0.Init f gvr, none)

/-! ## Fallback field extraction (extractMeta and friends) -/

/-- A weakly-typed value, as Go sees `interface{}` entries of an
unstructured object: a string, a `[]string`, a `[]interface{}`, a
`map[string]interface{}`, or any other dynamic type. -/
inductive UVal where
  | str : String → UVal
  | strs : List String → UVal
  | arr : List UVal → UVal
  | map : List (String × UVal) → UVal
  | other : UVal

abbrev Umap := List (String × UVal)

/-- Go map read `m[n]` (`none` when absent, matching an untyped nil). -/
def mget (m : Umap) (n : String) : Option UVal :=
  (m.find? (fun p => decide (p.1 = n))).map (fun p => p.2)

/-- Go `extractStr`: a failed string assertion collects one error and
yields the zero value. -/
def extractStr (m : Umap) (n : String) (errs : List String) : String × List String :=
  match mget m n with
  | some (.str s) => (s, errs)
  | _ => ("", errs ++ ["failed to extract string " ++ n])

/-- Go `extractMap`. -/
def extractMap (m : Umap) (n : String) (errs : List String) : Umap × List String :=
  match mget m n with
  | some (.map t) => (t, errs)
  | _ => ([], errs ++ ["failed to extract field " ++ n])

/-- The per-element body of `extractSlice`'s loop. -/
def extractSliceStep (n : String) (acc : List String × List String) (name : UVal) :
    List String × List String :=
  match name with
  | .str o => (acc.1 ++ [o], acc.2)
  | .map o =>
    match mget o "name" with
    | some (.str s) => (acc.1 ++ [s], acc.2)
    | _ => (acc.1, acc.2 ++ ["unable to find key " ++ n ++ " in map"])
  | _ => (acc.1, acc.2 ++ ["unknown field type for key " ++ n])

/-- Go `extractSlice`: nil field is silently empty; a `[]string` is taken
as-is; a `[]interface{}` is walked element by element; anything else is
one collected error. -/
def extractSlice (m : Umap) (n : String) (errs : List String) :
    List String × List String :=
  match mget m n with
  | none => ([], errs)
  | some (.strs s) => (s, errs)
  | some (.arr ii) => ii.foldl (extractSliceStep n) ([], errs)
  | some _ => ([], errs ++ ["failed to extract slice " ++ n])

def isNamespaced (scope : String) : Bool := scope = "Namespaced"

/-- A runtime.Object handed to `extractMeta`: either an unstructured
object (its backing map) or a value of any other dynamic type. -/
inductive RuntimeObject where
  | unstructured : Umap → RuntimeObject
  | otherObj : RuntimeObject

/-- Go `extractMeta`: best-effort field-by-field probe of a
weakly-typed CRD object, accumulating one error per failed probe.
Note `m.Name` is assigned from metadata.name and then overwritten by
spec.names.plural, exactly as in the source. -/
def extractMeta (o : RuntimeObject) : APIResource × List String :=
  match o with
  | .otherObj => ({}, ["expected unstructured"])
  | .unstructured obj =>
    let p1 := extractMap obj "spec" []
    let spec := p1.1
    let p2 := extractMap obj "metadata" p1.2
    let meta := p2.1
    let p3 := extractStr meta "name" p2.2
    let p4 := extractStr spec "group" p3.2
    let group := p4.1
    let p5 := extractSlice spec "versions" p4.2
    let versions := p5.1
    let version := match versions with | v :: _ => v | [] => ""
    let p6 := extractStr spec "scope" p5.2
    let scope := p6.1
    let p7 := extractMap spec "names" p6.2
    let names := p7.1
    let p8 := extractStr names "kind" p7.2
    let kind := p8.1
    let p9 := extractStr names "singular" p8.2
    let singular := p9.1
    let p10 := extractStr names "plural" p9.2
    let plural := p10.1
    let p11 := extractSlice names "shortNames" p10.2
    ({ Name := plural, Kind := kind, SingularName := singular, Group := group,
       Version := version, Namespaced := isNamespaced scope,
       ShortNames := p11.1 }, p11.2)

/-! ## Field-level characterization helpers for extractMeta -/

def strVal (m : Umap) (n : String) : String :=
  match mget m n with
  | some (.str s) => s
  | _ => ""

def strErrs (m : Umap) (n : String) : List String :=
  match mget m n with
  | some (.str _) => []
  | _ => ["failed to extract string " ++ n]

def mapVal (m : Umap) (n : String) : Umap :=
  match mget m n with
  | some (.map t) => t
  | _ => []

def mapErrs (m : Umap) (n : String) : List String :=
  match mget m n with
  | some (.map _) => []
  | _ => ["failed to extract field " ++ n]

/-- The value one loop element contributes, if any. -/
def elemVal (v : UVal) : Option String :=
  match v with
  | .str s => some s
  | .map o => match mget o "name" with | some (.str s) => some s | _ => none
  | _ => none

/-- The error one loop element contributes, if any. -/
def elemErr (n : String) (v : UVal) : Option String :=
  match v with
  | .str _ => none
  | .map o =>
    match mget o "name" with
    | some (.str _) => none
    | _ => some ("unable to find key " ++ n ++ " in map")
  | _ => some ("unknown field type for key " ++ n)

def sliceVal (m : Umap) (n : String) : List String :=
  match mget m n with
  | none => []
  | some (.strs s) => s
  | some (.arr ii) => ii.filterMap elemVal
  | some _ => []

def sliceErrs (m : Umap) (n : String) : List String :=
  match mget m n with
  | none => []
  | some (.strs _) => []
  | some (.arr ii) => ii.filterMap (elemErr n)
  | some _ => ["failed to extract slice " ++ n]

/-! ## Concrete inputs for witnesses and counterexamples -/

/-- A factory with no client at all (no connectivity). -/
def fDisc : Factory := { client := none, listCRDs := .ok [] }

/-- A connected factory whose discovery reports, under group-version "",
a resource whose identifier collides with the synthetic "workloads" key. -/
def fCollide : Factory :=
  { client := some
      { connectionOK := true,
        cachedDiscovery := .ok
          { preferred :=
              [{ groupVersion := "",
                 apiResources := [{ Name := "workloads", Kind := "FakeWorkload" }] }],
            preferredErr := none } },
    listCRDs := .ok [] }

/-- A connected factory for which obtaining the discovery handle fails. -/
def fHandleErr : Factory :=
  { client := some { connectionOK := true, cachedDiscovery := .error "boom" },
    listCRDs := .ok [] }

/-- The spec's scenario CRD: a skipped unserved version followed by a
served version that declares a scale subresource. -/
def crdScenario : CustomResourceDefinition :=
  { spec :=
      { group := "example.com",
        names := { kind := "Widget", plural := "widgets" },
        versions :=
          [{ name := "v1alpha1", served := false, deprecated := false },
           { name := "v1", served := true, deprecated := false,
             subresources := some { scale := some () } }] } }

/-- A well-formed unstructured CRD object whose names map lacks the
optional "shortNames" field. -/
def namesNoShort : Umap :=
  [("kind", .str "Widget"), ("singular", .str "widget"), ("plural", .str "widgets")]

def objNoShort : Umap :=
  [("metadata", .map [("name", .str "widgets.example.com")]),
   ("spec", .map
     [("group", .str "example.com"), ("scope", .str "Namespaced"),
      ("versions", .strs ["v1"]), ("names", .map namesNoShort)])]

/-! ## Map lemmas for the association-list embedding -/

theorem find?_replace_of_isSome (k : GVR) (v : APIResource) :
    ∀ m : ResourceMetas, (m.find? (fun p => decide (p.1 = k))).isSome →
      (m.map (fun p => if p.1 = k then (k, v) else p)).find? (fun p => decide (p.1 = k))
        = some (k, v)
  | [], h => by simp [List.find?] at h
  | p :: t, h => by
    by_cases hp : p.1 = k
    · simp [List.find?, hp]
    · have ht : (t.find? (fun p => decide (p.1 = k))).isSome := by
        simpa [List.find?, hp] using h
      simpa [List.find?, hp] using find?_replace_of_isSome k v t ht

theorem find?_replace_ne (k k' : GVR) (v : APIResource) (h : k' ≠ k) :
    ∀ m : ResourceMetas,
      (m.map (fun p => if p.1 = k then (k, v) else p)).find? (fun p => decide (p.1 = k'))
        = m.find? (fun p => decide (p.1 = k'))
  | [] => by simp
  | p :: t => by
    by_cases hp : p.1 = k
    · have hkk : ¬ (k = k') := fun he => h he.symm
      have hpk : ¬ (p.1 = k') := by rw [hp]; exact hkk
      simp [List.find?, hp, hkk, hpk, find?_replace_ne k k' v h t]
    · by_cases hp' : p.1 = k'
      · simp [List.find?, h, hp, hp']
      · simp [List.find?, hp, hp', find?_replace_ne k k' v h t]

theorem find?_append_pair (q : GVR × APIResource → Bool) :
    ∀ (m l : ResourceMetas),
      (m ++ l).find? q = match m.find? q with
        | some x => some x
        | none => l.find? q
  | [], l => by simp
  | p :: t, l => by
    by_cases hp : q p = true
    · simp [List.find?, hp]
    · have hp' : q p = false := by simpa using hp
      simp [List.find?, hp', find?_append_pair q t l]

theorem lookupMeta_setMeta_self (m : ResourceMetas) (k : GVR) (v : APIResource) :
    lookupMeta (setMeta m k v) k = some v := by
  unfold setMeta
  by_cases h : (m.find? (fun p => decide (p.1 = k))).isSome
  · simp only [h, if_true, lookupMeta, find?_replace_of_isSome k v m h, Option.map_some']
  · have hn : m.find? (fun p => decide (p.1 = k)) = none :=
      Option.not_isSome_iff_eq_none.mp h
    simp [h, lookupMeta, find?_append_pair, hn, List.find?]

theorem lookupMeta_setMeta_ne (m : ResourceMetas) (k k' : GVR) (v : APIResource)
    (h : k' ≠ k) : lookupMeta (setMeta m k v) k' = lookupMeta m k' := by
  unfold setMeta
  by_cases hs : (m.find? (fun p => decide (p.1 = k))).isSome
  · simp only [hs, if_true, lookupMeta, find?_replace_ne k k' v h m]
  · have hkk : ¬ (k = k') := fun he => h he.symm
    simp [hs, lookupMeta, find?_append_pair, List.find?, hkk]

theorem keys_setMeta (m : ResourceMetas) (k : GVR) (v : APIResource)
    (h : (lookupMeta m k).isSome) :
    (setMeta m k v).map Prod.fst = m.map Prod.fst := by
  have hf : (m.find? (fun p => decide (p.1 = k))).isSome := by
    unfold lookupMeta at h
    cases hx : m.find? (fun p => decide (p.1 = k)) <;> simp [hx] at h ⊢
  unfold setMeta
  simp only [hf, if_true, List.map_map]
  apply List.map_congr_left
  intro p _
  by_cases hp : p.1 = k
  · simp [hp]
  · simp [hp]

theorem lookupMeta_setMetaList_not_mem (k : GVR) :
    ∀ (l : List (GVR × APIResource)) (m : ResourceMetas),
      k ∉ l.map Prod.fst → lookupMeta (setMetaList m l) k = lookupMeta m k
  | [], m, _ => rfl
  | p :: t, m, h => by
    have h1 : k ≠ p.1 := by
      intro he; exact h (by simp [he])
    have h2 : k ∉ t.map Prod.fst := by
      intro hm; exact h (by simp [hm])
    calc lookupMeta (setMetaList (setMeta m p.1 p.2) t) k
        = lookupMeta (setMeta m p.1 p.2) k :=
          lookupMeta_setMetaList_not_mem k t (setMeta m p.1 p.2) h2
      _ = lookupMeta m k := lookupMeta_setMeta_ne m p.1 k p.2 h1

theorem lookupMeta_setMetaList_mem (k : GVR) (d : APIResource) :
    ∀ (l : List (GVR × APIResource)) (m : ResourceMetas),
      (l.map Prod.fst).Nodup → (k, d) ∈ l →
      lookupMeta (setMetaList m l) k = some d
  | [], _, _, hmem => by simp at hmem
  | p :: t, m, hnd, hmem => by
    rw [List.map_cons, List.nodup_cons] at hnd
    rcases List.mem_cons.mp hmem with he | ht
    · subst he
      show lookupMeta (setMetaList (setMeta m k d) t) k = some d
      rw [lookupMeta_setMetaList_not_mem k t (setMeta m k d) hnd.1]
      exact lookupMeta_setMeta_self m k d
    · exact lookupMeta_setMetaList_mem k d t (setMeta m p.1 p.2) hnd.2 ht

theorem loadNonResource_eq (m : ResourceMetas) :
    loadNonResource m = setMetaList m syntheticEntries := by
  simp only [loadNonResource, loadHelm, loadRBAC, loadK9s, syntheticEntries,
    setMetaList, List.foldl]

theorem syntheticKeys_nodup : (syntheticEntries.map Prod.fst).Nodup := by decide

set_option maxHeartbeats 2000000 in
theorem loadNonResource_nil : loadNonResource [] = syntheticEntries := by decide

/-! ## The augmentation-phase transition relation -/

/-- What a run of the extension-type augmentation phase may do to the
store: the key list is unchanged, and each entry is either untouched or
has exactly the "scale" category appended (only when absent before). -/
def AugRel (m m' : ResourceMetas) : Prop :=
  m'.map Prod.fst = m.map Prod.fst ∧
  ∀ k, lookupMeta m' k = lookupMeta m k ∨
    ∃ d, lookupMeta m k = some d ∧ scaleCat ∉ d.Categories ∧
      lookupMeta m' k = some { d with Categories := d.Categories ++ [scaleCat] }

theorem augRel_refl (m : ResourceMetas) : AugRel m m :=
  ⟨rfl, fun _ => Or.inl rfl⟩

theorem augRel_trans {m1 m2 m3 : ResourceMetas}
    (h12 : AugRel m1 m2) (h23 : AugRel m2 m3) : AugRel m1 m3 := by
  refine ⟨h23.1.trans h12.1, fun k => ?_⟩
  rcases h23.2 k with h3 | ⟨d2, hd2, hs2, hd3⟩
  · rcases h12.2 k with h2 | ⟨d1, hd1, hs1, hd2⟩
    · exact Or.inl (h3.trans h2)
    · exact Or.inr ⟨d1, hd1, hs1, h3.trans hd2⟩
  · rcases h12.2 k with h2 | ⟨d1, hd1, hs1, hd2'⟩
    · exact Or.inr ⟨d2, h2 ▸ hd2, hs2, hd3⟩
    · exfalso
      have he : d2 = { d1 with Categories := d1.Categories ++ [scaleCat] } :=
        Option.some.inj (hd2.symm.trans hd2')
      apply hs2
      rw [he]
      exact List.mem_append_right _ (List.mem_singleton.mpr rfl)

theorem augRel_applyCRD (m : ResourceMetas) (o : Option CustomResourceDefinition) :
    AugRel m (applyCRD m o) := by
  unfold applyCRD
  split
  · exact augRel_refl m
  · split
    · exact augRel_refl m
    · split
      · exact augRel_refl m
      · split
        · split
          · exact augRel_refl m
          · rename_i meta hl hsc hmem
            rename_i gvr version hg crd
            constructor
            · exact keys_setMeta m gvr _ (by simp [hl])
            · intro k
              by_cases hk : k = gvr
              · subst hk
                exact Or.inr ⟨meta, hl, hmem, lookupMeta_setMeta_self m k _⟩
              · exact Or.inl (lookupMeta_setMeta_ne m gvr k _ hk)
        · exact augRel_refl m

theorem augRel_foldl :
    ∀ (oo : List (Option CustomResourceDefinition)) (m : ResourceMetas),
      AugRel m (oo.foldl applyCRD m)
  | [], m => augRel_refl m
  | o :: t, m =>
    augRel_trans (augRel_applyCRD m o) (augRel_foldl t (applyCRD m o))

/-! ## Per-case equation lemmas for the guarded phases -/

theorem loadPreferred_none {f : Factory} (h : f.client = none) (m : ResourceMetas) :
    loadPreferred f m = .ok m := by
  simp [loadPreferred, h]

theorem loadPreferred_noconn {f : Factory} {c : Client} (h : f.client = some c)
    (h2 : c.connectionOK = false) (m : ResourceMetas) :
    loadPreferred f m = .ok m := by
  simp [loadPreferred, h, h2]

theorem loadPreferred_handle_err {f : Factory} {c : Client} {e : String}
    (h : f.client = some c) (h2 : c.connectionOK = true)
    (h3 : c.cachedDiscovery = .error e) (m : ResourceMetas) :
    loadPreferred f m = .error e := by
  simp [loadPreferred, h, h2, h3]

theorem loadPreferred_run {f : Factory} {c : Client} {dial : Discovery}
    (h : f.client = some c) (h2 : c.connectionOK = true)
    (h3 : c.cachedDiscovery = .ok dial) (m : ResourceMetas) :
    loadPreferred f m = .ok (dial.preferred.foldl applyResourceList m) := by
  simp [loadPreferred, h, h2, h3]

theorem loadCRDs_none {f : Factory} (h : f.client = none) (m : ResourceMetas) :
    loadCRDs f m = m := by
  simp [loadCRDs, h]

theorem loadCRDs_noconn {f : Factory} {c : Client} (h : f.client = some c)
    (h2 : c.connectionOK = false) (m : ResourceMetas) :
    loadCRDs f m = m := by
  simp [loadCRDs, h, h2]

theorem loadCRDs_list_err {f : Factory} {c : Client} {e : String}
    (h : f.client = some c) (h2 : c.connectionOK = true)
    (h3 : f.listCRDs = .error e) (m : ResourceMetas) :
    loadCRDs f m = m := by
  simp [loadCRDs, h, h2, h3]

theorem loadCRDs_run {f : Factory} {c : Client} {oo : List (Option CustomResourceDefinition)}
    (h : f.client = some c) (h2 : c.connectionOK = true)
    (h3 : f.listCRDs = .ok oo) (m : ResourceMetas) :
    loadCRDs f m = oo.foldl applyCRD m := by
  simp [loadCRDs, h, h2, h3]

theorem LoadResources_of_err {f : Factory} {e : String}
    (h : loadPreferred f [] = .error e) (m : ResourceMetas) :
    LoadResources f m = ([], some e) := by
  simp [LoadResources, clearMetas, h]

theorem LoadResources_of_ok {f : Factory} {m1 : ResourceMetas}
    (h : loadPreferred f [] = .ok m1) (m : ResourceMetas) :
    LoadResources f m = (loadCRDs f (loadNonResource m1), none) := by
  simp [LoadResources, clearMetas, h]

theorem loadCRDs_augRel (f : Factory) (m : ResourceMetas) :
    AugRel m (loadCRDs f m) := by
  cases hc : f.client with
  | none => rw [loadCRDs_none hc]; exact augRel_refl m
  | some c =>
    cases hconn : c.connectionOK with
    | false => rw [loadCRDs_noconn hc hconn]; exact augRel_refl m
    | true =>
      cases hl : f.listCRDs with
      | error e => rw [loadCRDs_list_err hc hconn hl]; exact augRel_refl m
      | ok oo => rw [loadCRDs_run hc hconn hl]; exact augRel_foldl oo m

/-! ## Deprecation deny-list lemmas -/

theorem deprecated_eq {gvr : GVR} (h : isDeprecated gvr = true) :
    gvr = NewGVR "extensions/v1beta1/ingresses" := by
  have := of_decide_eq_true h
  simpa [deprecatedGVRs] using this

theorem lookupMeta_applyResource_dep {gvr : GVR} (h : isDeprecated gvr = true)
    (gvStr : String) (m : ResourceMetas) (res : APIResource) :
    lookupMeta (applyResource gvStr m res) gvr = lookupMeta m gvr := by
  by_cases hk : isDeprecated (FromGVAndR gvStr res.Name) = true
  · simp [applyResource, hk]
  · have hne : gvr ≠ FromGVAndR gvStr res.Name := fun he => hk (he ▸ h)
    simp only [applyResource]
    rw [if_neg hk]
    exact lookupMeta_setMeta_ne m _ gvr _ hne

theorem lookupMeta_resFold_dep {gvr : GVR} (h : isDeprecated gvr = true) (gvStr : String) :
    ∀ (l : List APIResource) (m : ResourceMetas),
      lookupMeta (l.foldl (applyResource gvStr) m) gvr = lookupMeta m gvr
  | [], _ => rfl
  | res :: t, m => by
    rw [List.foldl_cons,
      lookupMeta_resFold_dep h gvStr t (applyResource gvStr m res),
      lookupMeta_applyResource_dep h gvStr m res]

theorem lookupMeta_listFold_dep {gvr : GVR} (h : isDeprecated gvr = true) :
    ∀ (rr : List APIResourceList) (m : ResourceMetas),
      lookupMeta (rr.foldl applyResourceList m) gvr = lookupMeta m gvr
  | [], _ => rfl
  | r :: t, m => by
    rw [List.foldl_cons, lookupMeta_listFold_dep h t (applyResourceList m r)]
    exact lookupMeta_resFold_dep h r.groupVersion r.apiResources m

theorem loadPreferred_dep {gvr : GVR} (h : isDeprecated gvr = true)
    (f : Factory) (m m' : ResourceMetas) (hok : loadPreferred f m = .ok m') :
    lookupMeta m' gvr = lookupMeta m gvr := by
  cases hc : f.client with
  | none =>
    rw [loadPreferred_none hc] at hok
    cases hok
    rfl
  | some c =>
    cases hconn : c.connectionOK with
    | false =>
      rw [loadPreferred_noconn hc hconn] at hok
      cases hok
      rfl
    | true =>
      cases hd : c.cachedDiscovery with
      | error e => rw [loadPreferred_handle_err hc hconn hd] at hok; cases hok
      | ok dial =>
        rw [loadPreferred_run hc hconn hd] at hok
        cases hok
        exact lookupMeta_listFold_dep h dial.preferred m

/-! ## Characterization lemmas for the fallback extractors -/

theorem extractStr_char (m : Umap) (n : String) (errs : List String) :
    extractStr m n errs = (strVal m n, errs ++ strErrs m n) := by
  cases h : mget m n with
  | none => simp [extractStr, strVal, strErrs, h]
  | some v => cases v <;> simp [extractStr, strVal, strErrs, h]

theorem extractMap_char (m : Umap) (n : String) (errs : List String) :
    extractMap m n errs = (mapVal m n, errs ++ mapErrs m n) := by
  cases h : mget m n with
  | none => simp [extractMap, mapVal, mapErrs, h]
  | some v => cases v <;> simp [extractMap, mapVal, mapErrs, h]

theorem extractSlice_loop (n : String) :
    ∀ (ii : List UVal) (acc : List String × List String),
      ii.foldl (extractSliceStep n) acc
        = (acc.1 ++ ii.filterMap elemVal, acc.2 ++ ii.filterMap (elemErr n))
  | [], acc => by simp
  | v :: t, acc => by
    rw [List.foldl_cons, extractSlice_loop n t (extractSliceStep n acc v)]
    cases v with
    | str s => simp [extractSliceStep, elemVal, elemErr]
    | strs s => simp [extractSliceStep, elemVal, elemErr]
    | arr l => simp [extractSliceStep, elemVal, elemErr]
    | map o =>
      cases ho : mget o "name" with
      | none => simp [extractSliceStep, elemVal, elemErr, ho]
      | some w => cases w <;> simp [extractSliceStep, elemVal, elemErr, ho]
    | other => simp [extractSliceStep, elemVal, elemErr]

theorem extractSlice_char (m : Umap) (n : String) (errs : List String) :
    extractSlice m n errs = (sliceVal m n, errs ++ sliceErrs m n) := by
  cases h : mget m n with
  | none => simp [extractSlice, sliceVal, sliceErrs, h]
  | some v =>
    cases v with
    | str s => simp [extractSlice, sliceVal, sliceErrs, h]
    | strs s => simp [extractSlice, sliceVal, sliceErrs, h]
    | arr ii =>
      simp [extractSlice, sliceVal, sliceErrs, h, extractSlice_loop n ii ([], errs)]
    | map o => simp [extractSlice, sliceVal, sliceErrs, h]
    | other => simp [extractSlice, sliceVal, sliceErrs, h]

/-! ## Substring containment characterization -/

theorem hasPre_iff : ∀ (p l : List Char), hasPre p l = true ↔ ∃ t, l = p ++ t
  | [], l => by simp [hasPre]
  | a :: as, [] => by
    simp only [hasPre, List.cons_append]
    constructor
    · intro h; cases h
    · rintro ⟨t, ht⟩; cases ht
  | a :: as, b :: bs => by
    simp only [hasPre, Bool.and_eq_true, beq_iff_eq, List.cons_append]
    constructor
    · rintro ⟨rfl, h⟩
      obtain ⟨t, rfl⟩ := (hasPre_iff as bs).mp h
      exact ⟨t, rfl⟩
    · rintro ⟨t, ht⟩
      injection ht with h1 h2
      exact ⟨h1.symm, (hasPre_iff as bs).mpr ⟨t, h2⟩⟩

theorem hasInfixChars_iff : ∀ (p l : List Char),
    hasInfixChars p l = true ↔ ∃ a b, l = a ++ p ++ b
  | p, [] => by
    simp only [hasInfixChars, hasPre_iff]
    constructor
    · rintro ⟨t, ht⟩
      rcases List.append_eq_nil.mp ht.symm with ⟨hp, htn⟩
      exact ⟨[], [], by simp [hp]⟩
    · rintro ⟨a, b, hab⟩
      rcases List.append_eq_nil.mp hab.symm with ⟨hap, hb⟩
      rcases List.append_eq_nil.mp hap with ⟨ha, hp⟩
      exact ⟨[], by simp [hp]⟩
  | p, c :: t => by
    simp only [hasInfixChars, Bool.or_eq_true, hasPre_iff, hasInfixChars_iff p t]
    constructor
    · rintro (⟨s, hs⟩ | ⟨a, b, rfl⟩)
      · exact ⟨[], s, by simpa using hs⟩
      · exact ⟨c :: a, b, by simp⟩
    · rintro ⟨a, b, hab⟩
      cases a with
      | nil => exact Or.inl ⟨b, by simpa using hab⟩
      | cons x xs =>
        rw [List.cons_append, List.cons_append] at hab
        injection hab with h1 h2
        exact Or.inr ⟨xs, b, h2⟩

/-! ## A first-qualifying-element lemma for List.find? -/

theorem find?_first {α : Type} (p : α → Bool) :
    ∀ (pre : List α) (v : α) (post : List α),
      (∀ u ∈ pre, p u = false) → p v = true →
      (pre ++ v :: post).find? p = some v
  | [], v, post, _, hv => by simp [List.find?, hv]
  | a :: t, v, post, hpre, hv => by
    have ha : p a = false := hpre a (List.mem_cons_self a t)
    simp only [List.cons_append, List.find?, ha]
    exact find?_first p t v post (fun u hu => hpre u (List.mem_cons_of_mem a hu)) hv

/-! ## Claim C1 -/

set_option maxHeartbeats 4000000 in
/-- C1 counterexample: the claim's phase order (synthetics before
discovery) is falsified by a discovery input whose identifier collides
with the synthetic "workloads" key — the code's catalog keeps the
synthetic descriptor (synthetics run after discovery and overwrite it),
while the spec-ordered pipeline keeps the discovery descriptor. -/
theorem C1_counterexample :
    lookupMeta (LoadResources fCollide []).1 (NewGVR "workloads") ≠
      lookupMeta (LoadResourcesSpecOrder fCollide []).1 (NewGVR "workloads") := by
  decide

/-- C1 as amended: LoadResources runs its phases in the order
clear → live discovery → synthetic registration → extension-type
augmentation; for every input the resulting catalog equals the one
produced by running the phases in that order, and on a collision between
a discovery-reported identifier and a synthetic identifier the synthetic
descriptor wins (last write), possibly augmented with "scale". -/
theorem C1_amended (f : Factory) (m : ResourceMetas) :
    LoadResources f m = LoadResourcesCodeOrder f m ∧
    ((LoadResources f m).2 = none →
      ∀ k d, (k, d) ∈ syntheticEntries →
        lookupMeta (LoadResources f m).1 k = some d ∨
          lookupMeta (LoadResources f m).1 k
            = some { d with Categories := d.Categories ++ [scaleCat] }) := by
  constructor
  · rfl
  · intro hn k d hmem
    cases hp : loadPreferred f [] with
    | error e =>
      rw [LoadResources_of_err hp m] at hn
      cases hn
    | ok m1 =>
      rw [LoadResources_of_ok hp m]
      show lookupMeta (loadCRDs f (loadNonResource m1)) k = some d ∨
        lookupMeta (loadCRDs f (loadNonResource m1)) k
          = some { d with Categories := d.Categories ++ [scaleCat] }
      have hsyn : lookupMeta (loadNonResource m1) k = some d := by
        rw [loadNonResource_eq]
        exact lookupMeta_setMetaList_mem k d syntheticEntries m1 syntheticKeys_nodup hmem
      rcases (loadCRDs_augRel f (loadNonResource m1)).2 k with heq | ⟨d', hd', _, hd2⟩
      · exact Or.inl (heq.trans hsyn)
      · have hde : d' = d := Option.some.inj (hd'.symm.trans hsyn)
        subst hde
        exact Or.inr hd2

set_option maxHeartbeats 4000000 in
/-- C1 amended, witnessed at a disconnected factory and the synthetic
"workloads" entry. -/
theorem C1_amended_witness :
    LoadResources fDisc [] = LoadResourcesCodeOrder fDisc [] ∧
    (lookupMeta (LoadResources fDisc []).1 (NewGVR "workloads")
        = some { Name := "workloads", Kind := "Workload", SingularName := "workload",
                 Namespaced := true, ShortNames := ["wk"], Categories := [k9sCat] } ∨
      lookupMeta (LoadResources fDisc []).1 (NewGVR "workloads")
        = some { Name := "workloads", Kind := "Workload", SingularName := "workload",
                 Namespaced := true, ShortNames := ["wk"],
                 Categories := [k9sCat] ++ [scaleCat] }) :=
  ⟨(C1_amended fDisc []).1,
   (C1_amended fDisc []).2 (by decide) (NewGVR "workloads")
     { Name := "workloads", Kind := "Workload", SingularName := "workload",
       Namespaced := true, ShortNames := ["wk"], Categories := [k9sCat] }
     (by decide)⟩

/-! ## Claim C2 -/

/-- C2 counterexample: "networking.k8s.io/v1" is neither an exact member
of the allow-list nor ends with ".k8s.io", so per the claim it should be
non-standard and receive "crd"; the code classifies it standard (substring
containment of ".k8s.io") and appends nothing. -/
theorem C2_counterexample :
    isStandardGroup "networking.k8s.io/v1" = true ∧
    decide ("networking.k8s.io/v1" ∈ stdGroups) = false ∧
    strEndsWith "networking.k8s.io/v1" ".k8s.io" = false ∧
    (mkPreferredMeta "networking.k8s.io/v1"
        (FromGVAndR "networking.k8s.io/v1" "ingresses")
        { Name := "ingresses", Kind := "Ingress" }).Categories = [] := by
  decide

/-- C2 as amended: a group-version is classified standard exactly when it
is an exact member of the fixed allow-list or CONTAINS ".k8s.io" as a
substring (not merely as a suffix); a resource from a standard
group-version never has "crd" appended, and a resource from any other
group-version always has "crd" appended to its categories. -/
theorem C2_amended (gv : String) (gvr : GVR) (res : APIResource) :
    (isStandardGroup gv = true ↔
      gv ∈ stdGroups ∨ ∃ a b : List Char, gv.data = a ++ (".k8s.io").data ++ b) ∧
    (isStandardGroup gv = true →
      (mkPreferredMeta gv gvr res).Categories = res.Categories) ∧
    (isStandardGroup gv = false →
      (mkPreferredMeta gv gvr res).Categories = res.Categories ++ [crdCat]) := by
  refine ⟨?_, ?_, ?_⟩
  · simp [isStandardGroup, strContainsSub, hasInfixChars_iff, Bool.or_eq_true,
      decide_eq_true_eq]
  · intro h
    simp only [mkPreferredMeta, h, Bool.not_true, Bool.false_eq_true, if_false]
    split <;> rfl
  · intro h
    simp only [mkPreferredMeta, h, Bool.not_false, if_true]
    split <;> rfl

/-- C2 amended, witnessed at a standard ("apps/v1") and a non-standard
("example.com/v1") group-version. -/
theorem C2_amended_witness :
    (mkPreferredMeta "apps/v1" (FromGVAndR "apps/v1" "deployments")
        { Name := "deployments", Kind := "Deployment" }).Categories = [] ∧
    (mkPreferredMeta "example.com/v1" (FromGVAndR "example.com/v1" "widgets")
        { Name := "widgets", Kind := "Widget" }).Categories = [] ++ [crdCat] :=
  ⟨(C2_amended "apps/v1" (FromGVAndR "apps/v1" "deployments")
      { Name := "deployments", Kind := "Deployment" }).2.1 (by decide),
   (C2_amended "example.com/v1" (FromGVAndR "example.com/v1" "widgets")
      { Name := "widgets", Kind := "Widget" }).2.2 (by decide)⟩

/-! ## Claim C3 -/

/-- C3: when the client reports no active connection (or there is no
client), LoadResources returns success and the catalog holds exactly the
eighteen synthetic descriptors — whatever was previously stored is
discarded by the unconditional clear. -/
theorem C3_disconnected_synthetics_only (f : Factory) (m : ResourceMetas)
    (h : clientConnected f = false) :
    LoadResources f m = (syntheticEntries, none) := by
  cases hc : f.client with
  | none =>
    rw [LoadResources_of_ok (loadPreferred_none hc []) m, loadNonResource_nil,
      loadCRDs_none hc]
  | some c =>
    have hconn : c.connectionOK = false := by
      simpa [clientConnected, hc] using h
    rw [LoadResources_of_ok (loadPreferred_noconn hc hconn []) m, loadNonResource_nil,
      loadCRDs_noconn hc hconn]

/-- C3, witnessed at a factory with no client. -/
theorem C3_witness : LoadResources fDisc [] = (syntheticEntries, none) :=
  C3_disconnected_synthetics_only fDisc [] rfl

/-! ## Claim C4 -/

/-- C4: if obtaining the cached discovery handle fails, LoadResources
returns that error and the catalog is left completely empty (the clear
already ran, synthetic registration is never reached), so MetaFor fails,
AllGVRs is empty and GVK2GVR finds nothing. -/
theorem C4_handle_error_empties_catalog (f : Factory) (c : Client) (e : String)
    (m : ResourceMetas) (h1 : f.client = some c) (h2 : c.connectionOK = true)
    (h3 : c.cachedDiscovery = .error e) :
    LoadResources f m = ([], some e) ∧
    (∀ gvr, MetaFor ([] : ResourceMetas) gvr
        = .error ("no resource meta defined for " ++ gvr.toStr)) ∧
    AllGVRs ([] : ResourceMetas) = [] ∧
    (∀ g v k, GVK2GVR ([] : ResourceMetas) g v k = (NoGVR, false, false)) := by
  refine ⟨?_, fun gvr => rfl, rfl, fun g v k => rfl⟩
  exact LoadResources_of_err (loadPreferred_handle_err h1 h2 h3 []) m

/-- C4, witnessed at a connected factory whose discovery handle fails. -/
theorem C4_witness : LoadResources fHandleErr [] = ([], some "boom") :=
  (C4_handle_error_empties_catalog fHandleErr
    { connectionOK := true, cachedDiscovery := .error "boom" } "boom" []
    rfl rfl rfl).1

/-! ## Claim C5 -/

/-- C5: the authoritative version of a custom-type definition is the
first declared version that is served and not deprecated, and it alone
determines the derived identifier; when no version qualifies the object
yields no descriptor and the augmentation step leaves the store
untouched (and produces no error). -/
theorem C5_first_served_version (crd : CustomResourceDefinition) (m : ResourceMetas) :
    (∀ pre v post,
        crd.spec.versions = pre ++ v :: post →
        (∀ u ∈ pre, (u.served && !u.deprecated) = false) →
        (v.served && !v.deprecated) = true →
        newGVRFromCRD crd = some
          (NewGVRFromMeta
            { Kind := crd.spec.names.kind, Group := crd.spec.group,
              Name := crd.spec.names.plural, Version := v.name }, v)) ∧
    ((∀ u ∈ crd.spec.versions, (u.served && !u.deprecated) = false) →
      newGVRFromCRD crd = none ∧ applyCRD m (some crd) = m) := by
  constructor
  · intro pre v post hsplit hpre hv
    unfold newGVRFromCRD
    rw [hsplit, find?_first _ pre v post hpre hv]
    rfl
  · intro hall
    have hg : newGVRFromCRD crd = none := by
      unfold newGVRFromCRD
      rw [List.find?_eq_none.mpr (fun x hx => by simp [hall x hx])]
      rfl
    exact ⟨hg, by simp [applyCRD, hg]⟩

/-- C5, witnessed at the spec's scenario CRD (an unserved v1alpha1
followed by a served v1 with a scale subresource). -/
theorem C5_witness :
    newGVRFromCRD crdScenario = some
      (NewGVRFromMeta
        { Kind := "Widget", Group := "example.com", Name := "widgets",
          Version := "v1" },
       { name := "v1", served := true, deprecated := false,
         subresources := some { scale := some () } }) :=
  (C5_first_served_version crdScenario []).1
    [{ name := "v1alpha1", served := false, deprecated := false }]
    { name := "v1", served := true, deprecated := false,
      subresources := some { scale := some () } }
    [] rfl (by decide) (by decide)

/-! ## Claim C6 -/

/-- C6: the extension-type augmentation phase never adds or removes a
key — the key list after loadCRDs equals the one before — and the only
change it makes to any stored descriptor is appending the "scale"
category to an entry that did not already carry it. -/
theorem C6_augmentation_only (f : Factory) (m : ResourceMetas) :
    (loadCRDs f m).map Prod.fst = m.map Prod.fst ∧
    ∀ k, lookupMeta (loadCRDs f m) k = lookupMeta m k ∨
      ∃ d, lookupMeta m k = some d ∧ scaleCat ∉ d.Categories ∧
        lookupMeta (loadCRDs f m) k
          = some { d with Categories := d.Categories ++ [scaleCat] } :=
  loadCRDs_augRel f m

/-! ## Claim C7 -/

/-- C7: any identifier on the deprecation deny-list (which contains
exactly extensions/v1beta1/ingresses) is absent from the catalog after
any refresh, for every factory and every prior store content. -/
theorem C7_deprecated_never_catalogued (f : Factory) (m : ResourceMetas) (gvr : GVR)
    (h : isDeprecated gvr = true) :
    lookupMeta (LoadResources f m).1 gvr = none := by
  cases hp : loadPreferred f [] with
  | error e =>
    rw [LoadResources_of_err hp m]
    rfl
  | ok m1 =>
    rw [LoadResources_of_ok hp m]
    show lookupMeta (loadCRDs f (loadNonResource m1)) gvr = none
    have h1 : lookupMeta m1 gvr = none := by
      rw [loadPreferred_dep h f [] m1 hp]
      rfl
    have h2 : lookupMeta (loadNonResource m1) gvr = none := by
      rw [loadNonResource_eq,
        lookupMeta_setMetaList_not_mem gvr syntheticEntries m1
          (by rw [deprecated_eq h]; decide)]
      exact h1
    rcases (loadCRDs_augRel f (loadNonResource m1)).2 gvr with heq | ⟨d, hd, _, _⟩
    · exact heq.trans h2
    · rw [h2] at hd
      cases hd

/-- C7, witnessed at the deny-listed identifier and a disconnected
factory. -/
theorem C7_witness :
    lookupMeta (LoadResources fDisc []).1 (NewGVR "extensions/v1beta1/ingresses")
      = none :=
  C7_deprecated_never_catalogued fDisc [] (NewGVR "extensions/v1beta1/ingresses")
    (by decide)

/-! ## Claim C8 -/

/-- C8 counterexample: on a well-formed unstructured CRD object whose
names map lacks the "shortNames" key, that missing list-valued field
contributes NO error — extractMeta returns an empty error list — refuting
"each missing-or-mismatched-type field contributes exactly one error". -/
theorem C8_counterexample :
    (mget namesNoShort "shortNames").isNone = true ∧
    (extractMeta (RuntimeObject.unstructured objNoShort)).2 = [] := by
  decide

/-- C8 as amended: extraction never aborts early; each
missing-or-mismatched STRING- or MAP-valued field contributes exactly one
error; a MISSING list-valued field contributes no error (it yields the
empty list), while a present list-valued field of unrecognized shape
contributes one error; list elements are accepted as plain strings or as
maps carrying a string "name" key, any other element shape contributing
one error while the remaining elements are still processed; the caller
always receives the partial descriptor (each field derived independently
from its own probe) together with the full error list, and a
non-unstructured input returns the empty descriptor with one error. -/
theorem C8_amended (m : Umap) (n : String) (errs : List String) (obj : Umap) :
    extractStr m n errs = (strVal m n, errs ++ strErrs m n) ∧
    extractMap m n errs = (mapVal m n, errs ++ mapErrs m n) ∧
    extractSlice m n errs = (sliceVal m n, errs ++ sliceErrs m n) ∧
    extractMeta RuntimeObject.otherObj = ({}, ["expected unstructured"]) ∧
    extractMeta (RuntimeObject.unstructured obj) =
      ({ Name := strVal (mapVal (mapVal obj "spec") "names") "plural",
         Kind := strVal (mapVal (mapVal obj "spec") "names") "kind",
         SingularName := strVal (mapVal (mapVal obj "spec") "names") "singular",
         Group := strVal (mapVal obj "spec") "group",
         Version := (match sliceVal (mapVal obj "spec") "versions" with
                     | v :: _ => v
                     | [] => ""),
         Namespaced := isNamespaced (strVal (mapVal obj "spec") "scope"),
         ShortNames := sliceVal (mapVal (mapVal obj "spec") "names") "shortNames" },
       mapErrs obj "spec" ++ (mapErrs obj "metadata"
         ++ (strErrs (mapVal obj "metadata") "name"
         ++ (strErrs (mapVal obj "spec") "group"
         ++ (sliceErrs (mapVal obj "spec") "versions"
         ++ (strErrs (mapVal obj "spec") "scope"
         ++ (mapErrs (mapVal obj "spec") "names"
         ++ (strErrs (mapVal (mapVal obj "spec") "names") "kind"
         ++ (strErrs (mapVal (mapVal obj "spec") "names") "singular"
         ++ (strErrs (mapVal (mapVal obj "spec") "names") "plural"
         ++ sliceErrs (mapVal (mapVal obj "spec") "names") "shortNames")))))))))) := by
  refine ⟨extractStr_char m n errs, extractMap_char m n errs,
    extractSlice_char m n errs, rfl, ?_⟩
  simp only [extractMeta, extractStr_char, extractMap_char, extractSlice_char,
    List.nil_append, List.append_assoc]

/-! ## Claim C9 -/

/-- C9: AccessorFor always returns a nil error; the returned accessor is
initialized with the given factory and identifier before being returned;
and an identifier absent from the fixed dispatch table always yields the
(initialized) generic Scaler fallback, never an error. -/
theorem C9_accessor_always_initialized (f : Factory) (gvr : GVR) :
    (AccessorFor f gvr).2 = none ∧
    (AccessorFor f gvr).1.factory = some f ∧
    (AccessorFor f gvr).1.gvrId = some gvr ∧
    (gvr ∉ accessorTable.map Prod.fst →
      (AccessorFor f gvr).1.kind = AccessorKind.scaler) := by
  refine ⟨rfl, ?_, ?_, ?_⟩
  · cases hfind : accessorTable.find? (fun p => decide (p.1 = gvr)) with
    | none => simp [AccessorFor, Accessor.Init, hfind]
    | some p => simp [AccessorFor, Accessor.Init, hfind]
  · cases hfind : accessorTable.find? (fun p => decide (p.1 = gvr)) with
    | none => simp [AccessorFor, Accessor.Init, hfind]
    | some p => simp [AccessorFor, Accessor.Init, hfind]
  · intro h
    have hfind : accessorTable.find? (fun p => decide (p.1 = gvr)) = none := by
      rw [List.find?_eq_none]
      intro p hp
      simp only [decide_eq_true_eq]
      intro he
      exact h (he ▸ List.mem_map_of_mem Prod.fst hp)
    simp [AccessorFor, Accessor.Init, hfind]

/-- C9, witnessed at an identifier absent from the dispatch table. -/
theorem C9_witness :
    (AccessorFor fDisc (NewGVR "foo/v1/bars")).2 = none ∧
    (AccessorFor fDisc (NewGVR "foo/v1/bars")).1.factory = some fDisc ∧
    (AccessorFor fDisc (NewGVR "foo/v1/bars")).1.gvrId = some (NewGVR "foo/v1/bars") ∧
    (AccessorFor fDisc (NewGVR "foo/v1/bars")).1.kind = AccessorKind.scaler :=
  ⟨(C9_accessor_always_initialized fDisc (NewGVR "foo/v1/bars")).1,
   (C9_accessor_always_initialized fDisc (NewGVR "foo/v1/bars")).2.1,
   (C9_accessor_always_initialized fDisc (NewGVR "foo/v1/bars")).2.2.1,
   (C9_accessor_always_initialized fDisc (NewGVR "foo/v1/bars")).2.2.2 (by decide)⟩

/-! ## Claim C10 -/

/-- C10: refresh is idempotent with respect to upstream data — running
LoadResources a second time against the same factory, starting from the
catalog the first run produced, yields exactly the same catalog and
error; the unconditional clear makes the result independent of the prior
store contents. -/
theorem C10_idempotent (f : Factory) (m : ResourceMetas) :
    LoadResources f (LoadResources f m).1 = LoadResources f m := rfl

end K9s
